import Mathlib

/-!
Shallow embedding of the Token-Bucket-Rate-Limiter Go package
(`rate-limiter.go`) and proofs of its specification's claims.

The Go `rateLimiter` struct holds an `int64` capacity `RATE_LIMIT`, a
`time.Duration` refill period `REFILL_INTERVAL` (an `int64` nanosecond
count), and a slice `tokenBucket` of `int64` timestamps produced by
`time.Now().UnixNano()`.  Every operation on the bucket runs under the
struct's mutex, so each operation is modelled as one atomic step on the
state; an interleaving of concurrent calls is a sequence of such steps.
Machine integers are modelled as `Int` (the values involved are bucket
lengths and configured constants; no operation in the source can
overflow an `int64` before exhausting memory).
-/

/-- The `rateLimiter` struct from `rate-limiter.go`: capacity bound
`RATE_LIMIT`, refill period `REFILL_INTERVAL` (nanoseconds), and the
`tokenBucket` slice of `UnixNano` stamps.  The mutex is represented by
the atomicity of each modelled operation. -/
structure rateLimiter where
  RATE_LIMIT : Int
  REFILL_INTERVAL : Int
  tokenBucket : List Int
  deriving Repr, DecidableEq

/-- `RateLimiterConfig` from the source: the two tunables passed to
`SetConfig`. -/
structure RateLimiterConfig where
  RATE_LIMIT : Int
  REFILL_INTERVAL : Int
  deriving Repr, DecidableEq

/-- `BucketStatus` from the source: the JSON payload of the status
endpoints. -/
structure BucketStatus where
  BucketLimit : Int
  CurrentBucketSize : Int
  Bucket : List Int
  deriving Repr, DecidableEq

/-- `New()` returns a zero-value `rateLimiter`: zero limits and a nil
token slice. -/
def New : rateLimiter :=
  { RATE_LIMIT := 0, REFILL_INTERVAL := 0, tokenBucket := [] }

/-- `SetConfig` stores both configuration values on the receiver,
unconditionally; the source performs no validation and returns
nothing. -/
def SetConfig (r : rateLimiter) (cfg : RateLimiterConfig) : rateLimiter :=
  { r with RATE_LIMIT := cfg.RATE_LIMIT, REFILL_INTERVAL := cfg.REFILL_INTERVAL }

/-- `RefillBucket`: under the mutex, if `int64(len(r.tokenBucket)) <
r.RATE_LIMIT` append one `time.Now().UnixNano()` stamp, else do
nothing.  The nondeterministic clock reading is the parameter `now`. -/
def RefillBucket (r : rateLimiter) (now : Int) : rateLimiter :=
  if (r.tokenBucket.length : Int) < r.RATE_LIMIT then
    { r with tokenBucket := r.tokenBucket ++ [now] }
  else
    r

/-- The body of `GetBucketStatusWithHTTP`: under the mutex, build a
`BucketStatus` with the configured limit, the current slice length and
an empty `Bucket` list, and write it out; the receiver state is left as
it was. -/
def GetBucketStatusWithHTTP (r : rateLimiter) : BucketStatus × rateLimiter :=
  ({ BucketLimit := r.RATE_LIMIT,
     CurrentBucketSize := (r.tokenBucket.length : Int),
     Bucket := [] }, r)

/-- The body of `GetBucketStatusWithGin`: identical payload to the
plain-HTTP variant, sent through the Gin context instead. -/
def GetBucketStatusWithGin (r : rateLimiter) : BucketStatus × rateLimiter :=
  ({ BucketLimit := r.RATE_LIMIT,
     CurrentBucketSize := (r.tokenBucket.length : Int),
     Bucket := [] }, r)

/-- Observable outcome of one gate (middleware) call: `Admitted` carries
the `X-RateLimit-Remaining` count written after removal; `Rejected`
carries the remaining count `0` and the `Retry-After` hint, which the
source takes from `r.REFILL_INTERVAL`. -/
inductive GateOutcome where
  | Admitted (remaining : Nat)
  | Rejected (remaining : Nat) (retryAfter : Int)
  deriving Repr, DecidableEq

/-- `true` exactly on `Admitted` outcomes. -/
def GateOutcome.isAdmitted : GateOutcome → Bool
  | GateOutcome.Admitted _ => true
  | GateOutcome.Rejected _ _ => false

/-- `true` exactly on `Rejected` outcomes. -/
def GateOutcome.isRejected : GateOutcome → Bool
  | GateOutcome.Admitted _ => false
  | GateOutcome.Rejected _ _ => true

/-- The handler body of `RateLimitHTTPMiddleware`: under the mutex, if
`len(r.tokenBucket) > 0` reslice to `r.tokenBucket[1:]`, report the new
length, and pass the request on; otherwise report remaining `0`, a
`Retry-After` of `r.REFILL_INTERVAL`, and a 429 rejection. -/
def RateLimitHTTPMiddleware (r : rateLimiter) : GateOutcome × rateLimiter :=
  if 0 < r.tokenBucket.length then
    (GateOutcome.Admitted (r.tokenBucket.drop 1).length,
      { r with tokenBucket := r.tokenBucket.drop 1 })
  else
    (GateOutcome.Rejected 0 r.REFILL_INTERVAL, r)

/-- The handler body of `RateLimitGinMiddleware`: under the mutex, if
`len(r.tokenBucket) > 0` reslice to `r.tokenBucket[1:]`, report the new
length, and `ctx.Next()`; otherwise report remaining `0`, a
`Retry-After` of `r.REFILL_INTERVAL`, and a 429 rejection with
`ctx.Abort()`. -/
def RateLimitGinMiddleware (r : rateLimiter) : GateOutcome × rateLimiter :=
  if 0 < r.tokenBucket.length then
    (GateOutcome.Admitted (r.tokenBucket.drop 1).length,
      { r with tokenBucket := r.tokenBucket.drop 1 })
  else
    (GateOutcome.Rejected 0 r.REFILL_INTERVAL, r)

/-- One atomic bucket operation: a refill tick (with its clock reading),
one gate call, or one status read. -/
inductive Op where
  | refill (now : Int)
  | tryAdmit
  | status
  deriving Repr, DecidableEq

/-- Apply one atomic operation to the bucket state. -/
def applyOp (r : rateLimiter) : Op → rateLimiter
  | Op.refill now => RefillBucket r now
  | Op.tryAdmit => (RateLimitHTTPMiddleware r).2
  | Op.status => (GetBucketStatusWithHTTP r).2

/-- Run a sequence of interleaved atomic operations. -/
def runOps (r : rateLimiter) (ops : List Op) : rateLimiter :=
  ops.foldl applyOp r

/-- Run one refill tick per clock reading in `nows`, in order. -/
def refillTicks (r : rateLimiter) (nows : List Int) : rateLimiter :=
  nows.foldl RefillBucket r

/-- Run `n` consecutive gate calls, collecting the outcomes in order
together with the final state. -/
def runGateN : Nat → rateLimiter → List GateOutcome × rateLimiter
  | 0, r => ([], r)
  | Nat.succ n, r =>
      (((RateLimitHTTPMiddleware r).1 :: (runGateN n (RateLimitHTTPMiddleware r).2).1),
        (runGateN n (RateLimitHTTPMiddleware r).2).2)

/-- The tokens removed by `n` consecutive gate calls, in removal order:
each admitted call removes the head of the then-current slice. -/
def runGateRemoved : Nat → rateLimiter → List Int
  | 0, _ => []
  | Nat.succ n, r =>
      r.tokenBucket.take 1 ++ runGateRemoved n (RateLimitHTTPMiddleware r).2

example : RefillBucket { RATE_LIMIT := 2, REFILL_INTERVAL := 5, tokenBucket := [] } 9 =
    { RATE_LIMIT := 2, REFILL_INTERVAL := 5, tokenBucket := [9] } := by decide

example : (RateLimitHTTPMiddleware { RATE_LIMIT := 2, REFILL_INTERVAL := 5, tokenBucket := [3, 4] }).1 =
    GateOutcome.Admitted 1 := by decide

example : (runGateN 3 { RATE_LIMIT := 2, REFILL_INTERVAL := 5, tokenBucket := [3] }).1 =
    [GateOutcome.Admitted 0, GateOutcome.Rejected 0 5, GateOutcome.Rejected 0 5] := by decide

/-! ## Characterization lemmas for the individual operations -/

lemma RefillBucket_not_full (r : rateLimiter) (now : Int)
    (h : (r.tokenBucket.length : Int) < r.RATE_LIMIT) :
    RefillBucket r now = { r with tokenBucket := r.tokenBucket ++ [now] } := by
  unfold RefillBucket
  exact if_pos h

lemma RefillBucket_full (r : rateLimiter) (now : Int)
    (h : r.RATE_LIMIT ≤ (r.tokenBucket.length : Int)) :
    RefillBucket r now = r := by
  unfold RefillBucket
  exact if_neg (not_lt.mpr h)

lemma gate_pos (r : rateLimiter) (h : 0 < r.tokenBucket.length) :
    RateLimitHTTPMiddleware r =
      (GateOutcome.Admitted (r.tokenBucket.length - 1),
        { r with tokenBucket := r.tokenBucket.drop 1 }) := by
  unfold RateLimitHTTPMiddleware
  rw [if_pos h, List.length_drop]

lemma gate_zero (r : rateLimiter) (h : r.tokenBucket.length = 0) :
    RateLimitHTTPMiddleware r = (GateOutcome.Rejected 0 r.REFILL_INTERVAL, r) := by
  unfold RateLimitHTTPMiddleware
  rw [if_neg (by omega)]

lemma gate_nil (cap itv : Int) :
    RateLimitHTTPMiddleware ⟨cap, itv, []⟩ =
      (GateOutcome.Rejected 0 itv, ⟨cap, itv, []⟩) := by
  unfold RateLimitHTTPMiddleware
  rw [if_neg (by simp)]

lemma gate_cons (cap itv tok : Int) (t : List Int) :
    RateLimitHTTPMiddleware ⟨cap, itv, tok :: t⟩ =
      (GateOutcome.Admitted t.length, ⟨cap, itv, t⟩) := by
  unfold RateLimitHTTPMiddleware
  rw [if_pos (by simp)]
  rfl

lemma RefillBucket_RATE_LIMIT (r : rateLimiter) (now : Int) :
    (RefillBucket r now).RATE_LIMIT = r.RATE_LIMIT := by
  unfold RefillBucket
  split <;> rfl

lemma RefillBucket_REFILL_INTERVAL (r : rateLimiter) (now : Int) :
    (RefillBucket r now).REFILL_INTERVAL = r.REFILL_INTERVAL := by
  unfold RefillBucket
  split <;> rfl

lemma gate_RATE_LIMIT (r : rateLimiter) :
    (RateLimitHTTPMiddleware r).2.RATE_LIMIT = r.RATE_LIMIT := by
  unfold RateLimitHTTPMiddleware
  split <;> rfl

lemma gate_REFILL_INTERVAL (r : rateLimiter) :
    (RateLimitHTTPMiddleware r).2.REFILL_INTERVAL = r.REFILL_INTERVAL := by
  unfold RateLimitHTTPMiddleware
  split <;> rfl

/-! ## Lemmas about operation sequences -/

lemma runOps_nil (r : rateLimiter) : runOps r [] = r := rfl

lemma runOps_cons (r : rateLimiter) (op : Op) (ops : List Op) :
    runOps r (op :: ops) = runOps (applyOp r op) ops := rfl

lemma applyOp_RATE_LIMIT (r : rateLimiter) (op : Op) :
    (applyOp r op).RATE_LIMIT = r.RATE_LIMIT := by
  cases op with
  | refill now => exact RefillBucket_RATE_LIMIT r now
  | tryAdmit => exact gate_RATE_LIMIT r
  | status => rfl

lemma applyOp_REFILL_INTERVAL (r : rateLimiter) (op : Op) :
    (applyOp r op).REFILL_INTERVAL = r.REFILL_INTERVAL := by
  cases op with
  | refill now => exact RefillBucket_REFILL_INTERVAL r now
  | tryAdmit => exact gate_REFILL_INTERVAL r
  | status => rfl

lemma runOps_RATE_LIMIT : ∀ (ops : List Op) (r : rateLimiter),
    (runOps r ops).RATE_LIMIT = r.RATE_LIMIT := by
  intro ops
  induction ops with
  | nil => intro r; rfl
  | cons op ops ih =>
      intro r
      rw [runOps_cons, ih, applyOp_RATE_LIMIT]

lemma runOps_REFILL_INTERVAL : ∀ (ops : List Op) (r : rateLimiter),
    (runOps r ops).REFILL_INTERVAL = r.REFILL_INTERVAL := by
  intro ops
  induction ops with
  | nil => intro r; rfl
  | cons op ops ih =>
      intro r
      rw [runOps_cons, ih, applyOp_REFILL_INTERVAL]

lemma applyOp_length_le (r : rateLimiter) (op : Op)
    (h : (r.tokenBucket.length : Int) ≤ r.RATE_LIMIT) :
    ((applyOp r op).tokenBucket.length : Int) ≤ r.RATE_LIMIT := by
  cases op with
  | refill now =>
      show ((RefillBucket r now).tokenBucket.length : Int) ≤ r.RATE_LIMIT
      by_cases hlt : (r.tokenBucket.length : Int) < r.RATE_LIMIT
      · rw [RefillBucket_not_full r now hlt]
        show (((r.tokenBucket ++ [now]).length : Nat) : Int) ≤ r.RATE_LIMIT
        rw [List.length_append]
        simp only [List.length_cons, List.length_nil]
        omega
      · rw [RefillBucket_full r now (not_lt.mp hlt)]
        exact h
  | tryAdmit =>
      show ((RateLimitHTTPMiddleware r).2.tokenBucket.length : Int) ≤ r.RATE_LIMIT
      by_cases hpos : 0 < r.tokenBucket.length
      · rw [gate_pos r hpos]
        show (((r.tokenBucket.drop 1).length : Nat) : Int) ≤ r.RATE_LIMIT
        rw [List.length_drop]
        omega
      · rw [gate_zero r (by omega)]
        exact h
  | status => exact h

lemma runOps_length_le : ∀ (ops : List Op) (r : rateLimiter),
    (r.tokenBucket.length : Int) ≤ r.RATE_LIMIT →
    ((runOps r ops).tokenBucket.length : Int) ≤ r.RATE_LIMIT := by
  intro ops
  induction ops with
  | nil => intro r h; exact h
  | cons op ops ih =>
      intro r h
      rw [runOps_cons]
      have h2 := ih (applyOp r op) (by rw [applyOp_RATE_LIMIT]; exact applyOp_length_le r op h)
      rw [applyOp_RATE_LIMIT] at h2
      exact h2

lemma refillTicks_nil (r : rateLimiter) : refillTicks r [] = r := rfl

lemma refillTicks_cons (r : rateLimiter) (now : Int) (nows : List Int) :
    refillTicks r (now :: nows) = refillTicks (RefillBucket r now) nows := rfl

lemma refillTicks_append : ∀ (nows : List Int) (r : rateLimiter),
    (r.tokenBucket.length : Int) + nows.length ≤ r.RATE_LIMIT →
    refillTicks r nows = { r with tokenBucket := r.tokenBucket ++ nows } := by
  intro nows
  induction nows with
  | nil =>
      intro r h
      rw [refillTicks_nil]
      simp
  | cons now nows ih =>
      intro r h
      simp only [List.length_cons] at h
      rw [refillTicks_cons, RefillBucket_not_full r now (by omega)]
      have hlen : ((({ r with tokenBucket := r.tokenBucket ++ [now] } : rateLimiter).tokenBucket.length : Int) + (nows.length : Int) ≤ ({ r with tokenBucket := r.tokenBucket ++ [now] } : rateLimiter).RATE_LIMIT) := by
        simp only [List.length_append, List.length_cons, List.length_nil]
        omega
      rw [ih _ hlen]
      simp [List.append_assoc]

lemma refillTicks_full (r : rateLimiter) (nows : List Int)
    (h : r.RATE_LIMIT ≤ (r.tokenBucket.length : Int)) :
    refillTicks r nows = r := by
  induction nows with
  | nil => rfl
  | cons now nows ih =>
      rw [refillTicks_cons, RefillBucket_full r now h]
      exact ih

lemma runGateN_zero (r : rateLimiter) : runGateN 0 r = ([], r) := rfl

lemma runGateN_succ (n : Nat) (r : rateLimiter) :
    runGateN (n + 1) r =
      ((RateLimitHTTPMiddleware r).1 :: (runGateN n (RateLimitHTTPMiddleware r).2).1,
        (runGateN n (RateLimitHTTPMiddleware r).2).2) := rfl

lemma runGateRemoved_zero (r : rateLimiter) : runGateRemoved 0 r = [] := rfl

lemma runGateRemoved_succ (n : Nat) (r : rateLimiter) :
    runGateRemoved (n + 1) r =
      r.tokenBucket.take 1 ++ runGateRemoved n (RateLimitHTTPMiddleware r).2 := rfl

lemma runGateN_spec : ∀ (n : Nat) (r : rateLimiter), r.tokenBucket.length ≤ n →
    List.countP GateOutcome.isAdmitted (runGateN n r).1 = r.tokenBucket.length ∧
    List.countP GateOutcome.isRejected (runGateN n r).1 = n - r.tokenBucket.length ∧
    (runGateN n r).2 = { r with tokenBucket := [] } := by
  intro n
  induction n with
  | zero =>
      intro r h
      obtain ⟨cap, itv, bkt⟩ := r
      have hb : bkt = [] := List.length_eq_zero.mp (Nat.le_zero.mp h)
      subst hb
      exact ⟨rfl, rfl, rfl⟩
  | succ n ih =>
      intro r h
      obtain ⟨cap, itv, bkt⟩ := r
      cases bkt with
      | nil =>
          rw [runGateN_succ, gate_nil]
          obtain ⟨ha, hr, hs⟩ := ih ⟨cap, itv, []⟩ (Nat.zero_le n)
          refine ⟨?_, ?_, hs⟩
          · simpa [List.countP_cons, GateOutcome.isAdmitted] using ha
          · simp only [List.length_nil, Nat.sub_zero] at hr
            simp [List.countP_cons, GateOutcome.isRejected, hr]
      | cons tok t =>
          rw [runGateN_succ, gate_cons]
          have hle : t.length ≤ n := by
            simp only [List.length_cons] at h
            omega
          obtain ⟨ha, hr, hs⟩ := ih ⟨cap, itv, t⟩ hle
          refine ⟨?_, ?_, hs⟩
          · simp only [List.length_cons]
            simpa [List.countP_cons, GateOutcome.isAdmitted] using ha
          · simp only [List.length_cons, Nat.succ_sub_succ]
            simpa [List.countP_cons, GateOutcome.isRejected] using hr

lemma runGateRemoved_spec : ∀ (n : Nat) (r : rateLimiter), r.tokenBucket.length ≤ n →
    runGateRemoved n r = r.tokenBucket := by
  intro n
  induction n with
  | zero =>
      intro r h
      obtain ⟨cap, itv, bkt⟩ := r
      have hb : bkt = [] := List.length_eq_zero.mp (Nat.le_zero.mp h)
      subst hb
      rfl
  | succ n ih =>
      intro r h
      obtain ⟨cap, itv, bkt⟩ := r
      cases bkt with
      | nil =>
          rw [runGateRemoved_succ, gate_nil]
          simpa using ih ⟨cap, itv, []⟩ (Nat.zero_le n)
      | cons tok t =>
          rw [runGateRemoved_succ, gate_cons]
          have hle : t.length ≤ n := by
            simp only [List.length_cons] at h
            omega
          have ht := ih ⟨cap, itv, t⟩ hle
          simp only at ht
          simp [ht]

lemma runOps_nonpos : ∀ (ops : List Op) (r : rateLimiter),
    r.RATE_LIMIT ≤ 0 → r.tokenBucket = [] → runOps r ops = r := by
  intro ops
  induction ops with
  | nil => intro r _ _; rfl
  | cons op ops ih =>
      intro r hcap hb
      rw [runOps_cons]
      have hop : applyOp r op = r := by
        cases op with
        | refill now =>
            exact RefillBucket_full r now (by rw [hb]; simpa using hcap)
        | tryAdmit =>
            show (RateLimitHTTPMiddleware r).2 = r
            rw [gate_zero r (by rw [hb]; rfl)]
        | status => rfl
      rw [hop]
      exact ih r hcap hb

/-! ## Claim theorems -/

/-- C1: Capacity invariant: for every configured bucket with capacity
greater than zero, starting from the initial empty state, after every
sequence of interleaved refill-tick, gate, and status operations the
token count satisfies `0 ≤ len(tokenBucket) ≤ RATE_LIMIT` (quantifying
over all operation sequences covers the state after every prefix). -/
theorem capacity_invariant (cap interval : Int) (hcap : 0 < cap) (ops : List Op) :
    0 ≤ ((runOps (SetConfig New { RATE_LIMIT := cap, REFILL_INTERVAL := interval }) ops).tokenBucket.length : Int) ∧
    ((runOps (SetConfig New { RATE_LIMIT := cap, REFILL_INTERVAL := interval }) ops).tokenBucket.length : Int) ≤ cap := by
  refine ⟨by omega, ?_⟩
  have h0 : (((SetConfig New { RATE_LIMIT := cap, REFILL_INTERVAL := interval }).tokenBucket.length : Int) ≤ (SetConfig New { RATE_LIMIT := cap, REFILL_INTERVAL := interval }).RATE_LIMIT) := by
    show ((0 : Nat) : Int) ≤ cap
    omega
  exact runOps_length_le ops _ h0

/-- Witness for C1: capacity 2, interval 5, a concrete sequence of three
refill ticks, one gate call and one status read. -/
theorem capacity_invariant_witness :
    0 ≤ ((runOps (SetConfig New { RATE_LIMIT := 2, REFILL_INTERVAL := 5 }) [Op.refill 1, Op.refill 2, Op.refill 3, Op.tryAdmit, Op.status]).tokenBucket.length : Int) ∧
    ((runOps (SetConfig New { RATE_LIMIT := 2, REFILL_INTERVAL := 5 }) [Op.refill 1, Op.refill 2, Op.refill 3, Op.tryAdmit, Op.status]).tokenBucket.length : Int) ≤ 2 :=
  capacity_invariant 2 5 (by decide) [Op.refill 1, Op.refill 2, Op.refill 3, Op.tryAdmit, Op.status]

/-- C2: Gate contract: one gate call removes exactly the head (earliest
appended) token and returns `Admitted` with the remaining count right
after removal iff the count is positive; otherwise it returns `Rejected`
with remaining count 0 and a retry hint equal to the configured
`REFILL_INTERVAL`, the full interval. -/
theorem gate_contract (r : rateLimiter) :
    (0 < r.tokenBucket.length →
      (RateLimitHTTPMiddleware r).1 = GateOutcome.Admitted (r.tokenBucket.length - 1) ∧
      (RateLimitHTTPMiddleware r).2.tokenBucket = r.tokenBucket.drop 1 ∧
      r.tokenBucket = r.tokenBucket.take 1 ++ (RateLimitHTTPMiddleware r).2.tokenBucket) ∧
    (r.tokenBucket.length = 0 →
      (RateLimitHTTPMiddleware r).1 = GateOutcome.Rejected 0 r.REFILL_INTERVAL ∧
      (RateLimitHTTPMiddleware r).2 = r) := by
  constructor
  · intro h
    rw [gate_pos r h]
    exact ⟨rfl, rfl, (List.take_append_drop 1 r.tokenBucket).symm⟩
  · intro h
    rw [gate_zero r h]
    exact ⟨rfl, rfl⟩

/-- Witness for C2: a two-token bucket admits with remaining 1; an empty
bucket rejects with the configured interval 7 as retry hint. -/
theorem gate_contract_witness :
    (RateLimitHTTPMiddleware { RATE_LIMIT := 3, REFILL_INTERVAL := 7, tokenBucket := [10, 20] }).1 =
      GateOutcome.Admitted 1 ∧
    (RateLimitHTTPMiddleware { RATE_LIMIT := 3, REFILL_INTERVAL := 7, tokenBucket := [] }).1 =
      GateOutcome.Rejected 0 7 := by
  constructor
  · exact ((gate_contract { RATE_LIMIT := 3, REFILL_INTERVAL := 7, tokenBucket := [10, 20] }).1 (by decide)).1
  · exact ((gate_contract { RATE_LIMIT := 3, REFILL_INTERVAL := 7, tokenBucket := [] }).2 (by decide)).1

/-- C3: Refill step: one tick adds exactly one token when the count is
strictly below capacity, and is a complete no-op when the count is at or
above capacity; repeated ticks on a full bucket never change the
state. -/
theorem refill_step (r : rateLimiter) (now : Int) :
    ((r.tokenBucket.length : Int) < r.RATE_LIMIT →
      (RefillBucket r now).tokenBucket = r.tokenBucket ++ [now] ∧
      (RefillBucket r now).tokenBucket.length = r.tokenBucket.length + 1) ∧
    (r.RATE_LIMIT ≤ (r.tokenBucket.length : Int) →
      RefillBucket r now = r ∧ ∀ nows : List Int, refillTicks r nows = r) := by
  constructor
  · intro h
    rw [RefillBucket_not_full r now h]
    refine ⟨rfl, ?_⟩
    show (r.tokenBucket ++ [now]).length = r.tokenBucket.length + 1
    simp
  · intro h
    exact ⟨RefillBucket_full r now h, fun nows => refillTicks_full r nows h⟩

/-- Witness for C3: a bucket below capacity gains the new stamp; a full
bucket is unchanged by a tick. -/
theorem refill_step_witness :
    (RefillBucket { RATE_LIMIT := 2, REFILL_INTERVAL := 5, tokenBucket := [4] } 9).tokenBucket = [4, 9] ∧
    RefillBucket { RATE_LIMIT := 1, REFILL_INTERVAL := 5, tokenBucket := [4] } 9 =
      { RATE_LIMIT := 1, REFILL_INTERVAL := 5, tokenBucket := [4] } := by
  constructor
  · exact ((refill_step { RATE_LIMIT := 2, REFILL_INTERVAL := 5, tokenBucket := [4] } 9).1 (by decide)).1
  · exact ((refill_step { RATE_LIMIT := 1, REFILL_INTERVAL := 5, tokenBucket := [4] } 9).2 (by decide)).1

/-- C4: Linear replenishment: from the empty configured bucket of
capacity `c > 0`, exactly `c` refill ticks yield a count of exactly `c`,
and one further tick leaves the count (indeed the whole state)
unchanged. -/
theorem linear_replenishment (c : Nat) (_hc : 0 < c) (interval : Int)
    (nows : List Int) (hn : nows.length = c) (extra : Int) :
    (refillTicks (SetConfig New { RATE_LIMIT := (c : Int), REFILL_INTERVAL := interval }) nows).tokenBucket.length = c ∧
    RefillBucket (refillTicks (SetConfig New { RATE_LIMIT := (c : Int), REFILL_INTERVAL := interval }) nows) extra =
      refillTicks (SetConfig New { RATE_LIMIT := (c : Int), REFILL_INTERVAL := interval }) nows := by
  have happ := refillTicks_append nows (SetConfig New { RATE_LIMIT := (c : Int), REFILL_INTERVAL := interval }) (by
    show ((0 : Nat) : Int) + (nows.length : Int) ≤ (c : Int)
    omega)
  constructor
  · rw [happ]
    show (([] : List Int) ++ nows).length = c
    simpa using hn
  · rw [happ]
    apply RefillBucket_full
    show ((c : Nat) : Int) ≤ ((nows.length : Nat) : Int)
    omega

/-- Witness for C4: capacity 2, two ticks fill the bucket to 2, and a
third tick changes nothing. -/
theorem linear_replenishment_witness :
    (refillTicks (SetConfig New { RATE_LIMIT := ((2 : Nat) : Int), REFILL_INTERVAL := 5 }) [10, 20]).tokenBucket.length = 2 ∧
    RefillBucket (refillTicks (SetConfig New { RATE_LIMIT := ((2 : Nat) : Int), REFILL_INTERVAL := 5 }) [10, 20]) 30 =
      refillTicks (SetConfig New { RATE_LIMIT := ((2 : Nat) : Int), REFILL_INTERVAL := 5 }) [10, 20] := by
  exact linear_replenishment 2 (by decide) 5 [10, 20] (by decide) 30

/-- C5: No double-spend: `N` gate calls against a bucket holding exactly
`K < N` tokens (with no refills in between) yield exactly `K` `Admitted`
and `N - K` `Rejected` outcomes; the removed tokens are exactly the `K`
distinct tokens the bucket held, in order, and the bucket ends empty. -/
theorem no_double_spend (N K : Nat) (r : rateLimiter)
    (hK : r.tokenBucket.length = K) (hKN : K < N) :
    List.countP GateOutcome.isAdmitted (runGateN N r).1 = K ∧
    List.countP GateOutcome.isRejected (runGateN N r).1 = N - K ∧
    runGateRemoved N r = r.tokenBucket ∧
    (runGateRemoved N r).length = K ∧
    (runGateN N r).2.tokenBucket = [] := by
  have hle : r.tokenBucket.length ≤ N := by omega
  obtain ⟨ha, hr, hs⟩ := runGateN_spec N r hle
  have hrem := runGateRemoved_spec N r hle
  refine ⟨by rw [ha, hK], by rw [hr, hK], hrem, by rw [hrem, hK], by rw [hs]⟩

/-- Witness for C5: three gate calls on a two-token bucket: two admits,
one reject, both tokens removed in order, and an empty final bucket. -/
theorem no_double_spend_witness :
    List.countP GateOutcome.isAdmitted (runGateN 3 { RATE_LIMIT := 5, REFILL_INTERVAL := 7, tokenBucket := [11, 22] }).1 = 2 ∧
    List.countP GateOutcome.isRejected (runGateN 3 { RATE_LIMIT := 5, REFILL_INTERVAL := 7, tokenBucket := [11, 22] }).1 = 1 ∧
    runGateRemoved 3 { RATE_LIMIT := 5, REFILL_INTERVAL := 7, tokenBucket := [11, 22] } = [11, 22] ∧
    (runGateRemoved 3 { RATE_LIMIT := 5, REFILL_INTERVAL := 7, tokenBucket := [11, 22] }).length = 2 ∧
    (runGateN 3 { RATE_LIMIT := 5, REFILL_INTERVAL := 7, tokenBucket := [11, 22] }).2.tokenBucket = [] := by
  exact no_double_spend 3 2 { RATE_LIMIT := 5, REFILL_INTERVAL := 7, tokenBucket := [11, 22] } (by decide) (by decide)

/-- C6 counterexample: `SetConfig` accepts the non-positive capacity 0
and the non-positive interval -1 without any error (its codomain has no
error channel at all), stores them verbatim, and the resulting bucket
still answers gate calls, so no `ConfigurationError` is ever reported
and the bucket is not made unusable. -/
theorem setconfig_no_error_counterexample :
    SetConfig New { RATE_LIMIT := 0, REFILL_INTERVAL := -1 } =
      { RATE_LIMIT := 0, REFILL_INTERVAL := -1, tokenBucket := [] } ∧
    (RateLimitHTTPMiddleware (SetConfig New { RATE_LIMIT := 0, REFILL_INTERVAL := -1 })).1 =
      GateOutcome.Rejected 0 (-1) := by
  exact ⟨rfl, rfl⟩

/-- C6 amended: `SetConfig` performs no validation: it stores capacity
and interval unconditionally and reports nothing; with a non-positive
capacity the bucket degenerates so that no sequence of operations ever
adds a token and every gate call is rejected (with the stored interval
as the hint), so such a bucket never admits. -/
theorem setconfig_amended (r : rateLimiter) (cfg : RateLimiterConfig) :
    SetConfig r cfg = { r with RATE_LIMIT := cfg.RATE_LIMIT, REFILL_INTERVAL := cfg.REFILL_INTERVAL } ∧
    (cfg.RATE_LIMIT ≤ 0 → ∀ ops : List Op,
      (runOps (SetConfig New cfg) ops).tokenBucket = [] ∧
      (RateLimitHTTPMiddleware (runOps (SetConfig New cfg) ops)).1 =
        GateOutcome.Rejected 0 cfg.REFILL_INTERVAL) := by
  refine ⟨rfl, ?_⟩
  intro hcap ops
  have h := runOps_nonpos ops (SetConfig New cfg) hcap rfl
  rw [h]
  exact ⟨rfl, rfl⟩

/-- Witness for C6 amended: at the invalid capacity 0 the values are
stored verbatim and a refill tick followed by a gate call leaves the
bucket empty and rejects. -/
theorem setconfig_amended_witness :
    SetConfig { RATE_LIMIT := 1, REFILL_INTERVAL := 1, tokenBucket := [5] } { RATE_LIMIT := 0, REFILL_INTERVAL := -2 } =
      { RATE_LIMIT := 0, REFILL_INTERVAL := -2, tokenBucket := [5] } ∧
    (runOps (SetConfig New { RATE_LIMIT := 0, REFILL_INTERVAL := -2 }) [Op.refill 1, Op.tryAdmit]).tokenBucket = [] ∧
    (RateLimitHTTPMiddleware (runOps (SetConfig New { RATE_LIMIT := 0, REFILL_INTERVAL := -2 }) [Op.refill 1, Op.tryAdmit])).1 =
      GateOutcome.Rejected 0 (-2) := by
  refine ⟨(setconfig_amended { RATE_LIMIT := 1, REFILL_INTERVAL := 1, tokenBucket := [5] } { RATE_LIMIT := 0, REFILL_INTERVAL := -2 }).1, ?_, ?_⟩
  · exact ((setconfig_amended New { RATE_LIMIT := 0, REFILL_INTERVAL := -2 }).2 (by decide) [Op.refill 1, Op.tryAdmit]).1
  · exact ((setconfig_amended New { RATE_LIMIT := 0, REFILL_INTERVAL := -2 }).2 (by decide) [Op.refill 1, Op.tryAdmit]).2

/-- C7: Status contract: the status operation returns exactly the
configured capacity and the current count, an empty token-detail list,
leaves the state unchanged, repeats identically with no intervening
mutation, and the Gin variant reports the same payload. -/
theorem status_contract (r : rateLimiter) :
    (GetBucketStatusWithHTTP r).1 =
      { BucketLimit := r.RATE_LIMIT,
        CurrentBucketSize := (r.tokenBucket.length : Int),
        Bucket := [] } ∧
    (GetBucketStatusWithHTTP r).2 = r ∧
    (GetBucketStatusWithHTTP (GetBucketStatusWithHTTP r).2).1 = (GetBucketStatusWithHTTP r).1 ∧
    (GetBucketStatusWithGin r).1 = (GetBucketStatusWithHTTP r).1 ∧
    (GetBucketStatusWithGin r).2 = r := by
  exact ⟨rfl, rfl, rfl, rfl, rfl⟩

/-- C8: Configuration frame: refill, both gate variants and both status
variants never modify `RATE_LIMIT` or `REFILL_INTERVAL`; each of them
changes at most the `tokenBucket` field. -/
theorem config_frame (r : rateLimiter) (now : Int) :
    (RefillBucket r now).RATE_LIMIT = r.RATE_LIMIT ∧
    (RefillBucket r now).REFILL_INTERVAL = r.REFILL_INTERVAL ∧
    RefillBucket r now = { r with tokenBucket := (RefillBucket r now).tokenBucket } ∧
    (RateLimitHTTPMiddleware r).2.RATE_LIMIT = r.RATE_LIMIT ∧
    (RateLimitHTTPMiddleware r).2.REFILL_INTERVAL = r.REFILL_INTERVAL ∧
    (RateLimitHTTPMiddleware r).2 = { r with tokenBucket := (RateLimitHTTPMiddleware r).2.tokenBucket } ∧
    (RateLimitGinMiddleware r).2.RATE_LIMIT = r.RATE_LIMIT ∧
    (RateLimitGinMiddleware r).2.REFILL_INTERVAL = r.REFILL_INTERVAL ∧
    (RateLimitGinMiddleware r).2 = { r with tokenBucket := (RateLimitGinMiddleware r).2.tokenBucket } ∧
    (GetBucketStatusWithHTTP r).2 = r ∧
    (GetBucketStatusWithGin r).2 = r := by
  obtain ⟨cap, itv, bkt⟩ := r
  unfold RefillBucket RateLimitHTTPMiddleware RateLimitGinMiddleware GetBucketStatusWithHTTP GetBucketStatusWithGin
  split_ifs <;> simp

/-- C9: Variant equivalence: the plain-HTTP and the Gin middleware
perform the identical gate step: same outcome (decision, remaining
count, retry hint) and same successor state on every input state. -/
theorem variant_equivalence (r : rateLimiter) :
    RateLimitGinMiddleware r = RateLimitHTTPMiddleware r := rfl

/-- C10: Rejection atomicity: on an empty bucket both middleware
variants leave the whole state (all fields) unchanged: rejection has no
side effect on the bucket. -/
theorem rejection_no_mutation (r : rateLimiter) (h : r.tokenBucket.length = 0) :
    (RateLimitHTTPMiddleware r).2 = r ∧ (RateLimitGinMiddleware r).2 = r := by
  constructor
  · rw [gate_zero r h]
  · unfold RateLimitGinMiddleware
    rw [if_neg (by omega)]

/-- Witness for C10: a concrete empty bucket is returned unchanged by
both middleware variants. -/
theorem rejection_no_mutation_witness :
    (RateLimitHTTPMiddleware { RATE_LIMIT := 3, REFILL_INTERVAL := 5, tokenBucket := [] }).2 =
      { RATE_LIMIT := 3, REFILL_INTERVAL := 5, tokenBucket := [] } ∧
    (RateLimitGinMiddleware { RATE_LIMIT := 3, REFILL_INTERVAL := 5, tokenBucket := [] }).2 =
      { RATE_LIMIT := 3, REFILL_INTERVAL := 5, tokenBucket := [] } :=
  rejection_no_mutation { RATE_LIMIT := 3, REFILL_INTERVAL := 5, tokenBucket := [] } (by decide)
